import Mathlib

/-!
Verification of the esphome `DomainData` runtime registry
(`homeassistant/components/esphome/domain_data.py`).

The registry is a plain in-memory data structure; we embed it in state-passing
style.  Python dictionaries become association lists (`lookupKey` / `setKey` /
`removeKey`), the external `lru.LRU` bounded cache becomes the `LRU` structure
below with the most-recently-used pair at the head of its entry list, and
Python exceptions (`KeyError`, `ValueError`) become `Except DataErr`.  Python
object identity for lazily created storage handles is modelled by threading an
allocation counter: every run of the `ESPHomeStorage` constructor consumes one
fresh `objId`.
-/

namespace EsphomeDomainData

/-- Association-list lookup, mirroring Python `d[k]` / `d.get(k)` on a dict
whose keys are unique. -/
def lookupKey {κ V : Type} [DecidableEq κ] (k : κ) : List (κ × V) → Option V
  | [] => none
  | p :: rest => if p.1 = k then some p.2 else lookupKey k rest

/-- Association-list assignment, mirroring Python `d[k] = v`: replace in place
when the key is present, otherwise append (dicts keep insertion order). -/
def setKey {κ V : Type} [DecidableEq κ] (k : κ) (v : V) : List (κ × V) → List (κ × V)
  | [] => [(k, v)]
  | p :: rest => if p.1 = k then (k, v) :: rest else p :: setKey k v rest

/-- Association-list deletion, mirroring Python `d.pop(k, ...)`: drop every
pair stored under `k` (at most one arises through the registry API). -/
def removeKey {κ V : Type} [DecidableEq κ] (k : κ) : List (κ × V) → List (κ × V)
  | [] => []
  | p :: rest => if p.1 = k then removeKey k rest else p :: removeKey k rest

/-- Model of the external bounded least-recently-used cache container
(`lru.LRU(maxSize)`).  `entries` keeps the most recently used pair at the
head; the least recently used pair is last and is the eviction candidate. -/
structure LRU (V : Type) where
  maxSize : Nat
  entries : List (Int × V)
deriving DecidableEq

namespace LRU

variable {V : Type}

/-- Read `c.get(k)`: a hit returns the value and refreshes the key's recency
(the `lru` container reorders on every non-peek access); a miss returns
`none` and leaves the cache unchanged. -/
def get (c : LRU V) (k : Int) : Option V × LRU V :=
  match lookupKey k c.entries with
  | none => (none, c)
  | some v => (some v, { c with entries := (k, v) :: removeKey k c.entries })

/-- Write `c[k] = v`: move (or insert) the pair to the most-recent position;
when this overflows the capacity the least-recently-used (last) pair is
evicted, which `take maxSize` performs. -/
def set (c : LRU V) (k : Int) (v : V) : LRU V :=
  { c with entries := ((k, v) :: removeKey k c.entries).take c.maxSize }

/-- Removal `c.pop(k, default)`: drop the key if present; absence is not an
error.  The recency order of the remaining pairs is unchanged. -/
def pop (c : LRU V) (k : Int) : Option V × LRU V :=
  (lookupKey k c.entries, { c with entries := removeKey k c.entries })

end LRU

/-- Opaque handle for the external Bluetooth GATT service-collection type
(`bleak.backends.service.BleakGATTServiceCollection`); the registry only
stores and returns it. -/
structure BleakGATTServiceCollection where
  handle : Nat
deriving DecidableEq

/-- Modelled from the spec: the per-entry runtime-data object
(`RuntimeEntryData`, declared in the repository's `entry_data` module, which
is not among the given sources).  It is opaque to the registry, which only
stores and retrieves the reference. -/
structure RuntimeEntryData where
  handle : Nat
deriving DecidableEq

/-- Host-platform configuration entry.  The registry keys everything on the
opaque identifier `entry_id`; the remaining fields stand for the entry's
other attributes, which the registry never reads. -/
structure ConfigEntry where
  entry_id : String
  title : String
  domain : String
deriving DecidableEq

/-- Modelled from the spec: the persistent storage handle (`ESPHomeStorage`,
declared in the repository's `entry_data` module, which is not among the
given sources).  It is an external versioned store abstraction constructed
from a schema version, a string storage key and an encoder; the handle of the
host context passed to the constructor is opaque and retains no state
observable here.  `objId` models Python object identity: each constructor
call yields a fresh object. -/
structure ESPHomeStorage where
  objId : Nat
  version : Nat
  key : String
  encoder : String
deriving DecidableEq

/-- Run the `ESPHomeStorage(...)` constructor at allocation counter `σ`:
returns the freshly allocated handle and the advanced counter. -/
def ESPHomeStorage.construct (σ : Nat) (version : Nat) (key : String)
    (encoder : String) : ESPHomeStorage × Nat :=
  ({ objId := σ, version := version, key := key, encoder := encoder }, σ + 1)

/-- Storage schema version passed to every store construction
(`STORAGE_VERSION = 1`). -/
def STORAGE_VERSION : Nat := 1

/-- Capacity of each of the two bounded GATT caches
(`MAX_CACHED_SERVICES = 128`). -/
def MAX_CACHED_SERVICES : Nat := 128

/-- The integration's domain key in host process state (`DOMAIN` from the
repository's `const` module: the literal string of the integration name,
visible in the storage-key prefix `"esphome."`). -/
def DOMAIN : String := "esphome"

/-- The registry dataclass `DomainData`, with the dataclass field defaults:
two empty dicts and two empty `LRU(MAX_CACHED_SERVICES)` caches. -/
structure DomainData where
  _entry_datas : List (String × RuntimeEntryData) := []
  _stores : List (String × ESPHomeStorage) := []
  _gatt_services_cache : LRU BleakGATTServiceCollection :=
    { maxSize := MAX_CACHED_SERVICES, entries := [] }
  _gatt_mtu_cache : LRU Int := { maxSize := MAX_CACHED_SERVICES, entries := [] }
deriving DecidableEq

/-- The host process state: we model the one slot of `hass.data` the
registry uses, `hass.data[DOMAIN]`.  `none` means the key `DOMAIN` is
absent from `hass.data`. -/
structure HomeAssistant where
  dataEsphome : Option DomainData
deriving DecidableEq

/-- Python `KeyError` (Not-Found) and `ValueError` (Invalid-State /
Already-Registered), the two failure kinds the registry raises. -/
inductive DataErr
  | keyError
  | valueError
deriving DecidableEq

namespace DomainData

/-- Method `get_gatt_services_cache(address)`: returns the cached service
collection or `None`; a hit refreshes recency, so the cache state is
returned alongside. -/
def get_gatt_services_cache (dd : DomainData) (address : Int) :
    Option BleakGATTServiceCollection × DomainData :=
  let r := dd._gatt_services_cache.get address
  (r.1, { dd with _gatt_services_cache := r.2 })

/-- Method `set_gatt_services_cache(address, services)`. -/
def set_gatt_services_cache (dd : DomainData) (address : Int)
    (services : BleakGATTServiceCollection) : DomainData :=
  { dd with _gatt_services_cache := dd._gatt_services_cache.set address services }

/-- Method `clear_gatt_services_cache(address)`:
`self._gatt_services_cache.pop(address, None)`, result discarded. -/
def clear_gatt_services_cache (dd : DomainData) (address : Int) : DomainData :=
  { dd with _gatt_services_cache := (dd._gatt_services_cache.pop address).2 }

/-- Method `get_gatt_mtu_cache(address)`. -/
def get_gatt_mtu_cache (dd : DomainData) (address : Int) : Option Int × DomainData :=
  let r := dd._gatt_mtu_cache.get address
  (r.1, { dd with _gatt_mtu_cache := r.2 })

/-- Method `set_gatt_mtu_cache(address, mtu)`. -/
def set_gatt_mtu_cache (dd : DomainData) (address : Int) (mtu : Int) : DomainData :=
  { dd with _gatt_mtu_cache := dd._gatt_mtu_cache.set address mtu }

/-- Method `clear_gatt_mtu_cache(address)`. -/
def clear_gatt_mtu_cache (dd : DomainData) (address : Int) : DomainData :=
  { dd with _gatt_mtu_cache := (dd._gatt_mtu_cache.pop address).2 }

/-- Method `get_entry_data(entry)`: `self._entry_datas[entry.entry_id]`,
raising `KeyError` when the identifier is not registered. -/
def get_entry_data (dd : DomainData) (entry : ConfigEntry) :
    Except DataErr RuntimeEntryData :=
  match lookupKey entry.entry_id dd._entry_datas with
  | some d => .ok d
  | none => .error .keyError

/-- Method `set_entry_data(entry, entry_data)`: raises `ValueError` when the
identifier already has runtime data (the raise happens before any mutation,
so a failed call leaves the registry untouched); otherwise stores the data. -/
def set_entry_data (dd : DomainData) (entry : ConfigEntry)
    (entry_data : RuntimeEntryData) : Except DataErr DomainData :=
  if (lookupKey entry.entry_id dd._entry_datas).isSome then
    .error .valueError
  else
    .ok { dd with _entry_datas := setKey entry.entry_id entry_data dd._entry_datas }

/-- Method `pop_entry_data(entry)`: `self._entry_datas.pop(entry.entry_id)`,
raising `KeyError` when absent, otherwise returning the removed data and the
updated registry. -/
def pop_entry_data (dd : DomainData) (entry : ConfigEntry) :
    Except DataErr (RuntimeEntryData × DomainData) :=
  match lookupKey entry.entry_id dd._entry_datas with
  | some d =>
    .ok (d, { dd with _entry_datas := removeKey entry.entry_id dd._entry_datas })
  | none => .error .keyError

/-- Method `get_or_create_store(hass, entry)`.  Python evaluates the default
argument of `dict.setdefault` eagerly, so the `ESPHomeStorage(...)`
constructor runs on every call — the allocation counter always advances —
and its result is discarded when the identifier is already present.  The
host context is passed through to the external constructor and retains no
state observable in this model. -/
def get_or_create_store (dd : DomainData) (_hass : HomeAssistant) (σ : Nat)
    (entry : ConfigEntry) : ESPHomeStorage × DomainData × Nat :=
  let r := ESPHomeStorage.construct σ STORAGE_VERSION
    ("esphome." ++ entry.entry_id) "JSONEncoder"
  match lookupKey entry.entry_id dd._stores with
  | some s => (s, dd, r.2)
  | none => (r.1, { dd with _stores := setKey entry.entry_id r.1 dd._stores }, r.2)

/-- Classmethod `DomainData.get(hass)`: return `hass.data[DOMAIN]` when
present (branching on presence, not `setdefault`); otherwise construct a
fresh registry, store it in the slot and return it. -/
def get (hass : HomeAssistant) : DomainData × HomeAssistant :=
  match hass.dataEsphome with
  | some dd => (dd, hass)
  | none =>
    let ret : DomainData := {}
    (ret, { hass with dataEsphome := some ret })

end DomainData

/-- One call of a registry method, state change only (returned values are
dropped); used to quantify over arbitrary operation sequences. -/
inductive DomainOp
  | getServices (a : Int)
  | setServices (a : Int) (s : BleakGATTServiceCollection)
  | clearServices (a : Int)
  | getMtu (a : Int)
  | setMtu (a : Int) (mtu : Int)
  | clearMtu (a : Int)
  | getEntry (e : ConfigEntry)
  | setEntry (e : ConfigEntry) (d : RuntimeEntryData)
  | popEntry (e : ConfigEntry)
  | getStore (hass : HomeAssistant) (σ : Nat) (e : ConfigEntry)

/-- State change of one registry method call (a failed entry-data call
leaves the registry unchanged, as the raise precedes any mutation). -/
def applyOp (dd : DomainData) : DomainOp → DomainData
  | .getServices a => (dd.get_gatt_services_cache a).2
  | .setServices a s => dd.set_gatt_services_cache a s
  | .clearServices a => dd.clear_gatt_services_cache a
  | .getMtu a => (dd.get_gatt_mtu_cache a).2
  | .setMtu a mtu => dd.set_gatt_mtu_cache a mtu
  | .clearMtu a => dd.clear_gatt_mtu_cache a
  | .getEntry _ => dd
  | .setEntry e d =>
    match dd.set_entry_data e d with
    | .ok dd2 => dd2
    | .error _ => dd
  | .popEntry e =>
    match dd.pop_entry_data e with
    | .ok r => r.2
    | .error _ => dd
  | .getStore hass σ e => (dd.get_or_create_store hass σ e).2.1

/-- State after a whole sequence of registry method calls. -/
def applyOps (dd : DomainData) (ops : List DomainOp) : DomainData :=
  ops.foldl applyOp dd

/-- Both GATT caches have capacity `MAX_CACHED_SERVICES` and hold no more
entries than that. -/
def CacheBound (dd : DomainData) : Prop :=
  dd._gatt_services_cache.maxSize = MAX_CACHED_SERVICES ∧
  dd._gatt_services_cache.entries.length ≤ MAX_CACHED_SERVICES ∧
  dd._gatt_mtu_cache.maxSize = MAX_CACHED_SERVICES ∧
  dd._gatt_mtu_cache.entries.length ≤ MAX_CACHED_SERVICES
/-- Every storage handle in the store map was constructed by
`get_or_create_store` for its own identifier: schema version
`STORAGE_VERSION` and key `"esphome." ++ identifier`.  This holds in every
reachable registry state. -/
def StoresWF (dd : DomainData) : Prop :=
  ∀ p ∈ dd._stores, p.2.version = STORAGE_VERSION ∧ p.2.key = "esphome." ++ p.1
/-- Populate the services cache for each address in `ks` (in order) with the
value `f` assigns to it. -/
def setServicesAll (dd : DomainData) (f : Int → BleakGATTServiceCollection)
    (ks : List Int) : DomainData :=
  ks.foldl (fun d k => d.set_gatt_services_cache k (f k)) dd

/-- Sample entry used to evaluate the theorems on concrete inputs. -/
def entryA : ConfigEntry :=
  { entry_id := "aabbcc", title := "bedroom", domain := "esphome" }

/-- Sample entry with an identifier different from `entryA`. -/
def entryB : ConfigEntry :=
  { entry_id := "ddeeff", title := "kitchen", domain := "esphome" }

/-- Sample entry sharing `entryA`'s identifier but differing in its other
attributes. -/
def entryA2 : ConfigEntry :=
  { entry_id := "aabbcc", title := "renamed", domain := "esphome" }

/-- Host state whose `hass.data` has no entry under `DOMAIN` yet. -/
def hassEmpty : HomeAssistant := { dataEsphome := none }

/-- Sample runtime-data object. -/
def dataA : RuntimeEntryData := { handle := 1 }

/-- Second sample runtime-data object. -/
def dataB : RuntimeEntryData := { handle := 2 }

/-- Registry state holding runtime data for `entryA` only. -/
def ddA : DomainData := { _entry_datas := [("aabbcc", dataA)] }

/-- Storage handle as created by the first `get_or_create_store` call for
`entryA` at allocation counter 0. -/
def storeA : ESPHomeStorage :=
  { objId := 0, version := 1, key := "esphome.aabbcc", encoder := "JSONEncoder" }

/-- Storage handle as created for `entryB` at allocation counter 1. -/
def storeB : ESPHomeStorage :=
  { objId := 1, version := 1, key := "esphome.ddeeff", encoder := "JSONEncoder" }

/-- Registry state after creating `entryA`'s store. -/
def ddStoreA : DomainData := { _stores := [("aabbcc", storeA)] }

/-- Registry state after creating `entryA`'s and then `entryB`'s store. -/
def ddStoreB : DomainData :=
  { _stores := [("aabbcc", storeA), ("ddeeff", storeB)] }

/-- Registry state with address 7 present in both GATT caches. -/
def ddC8 : DomainData :=
  (({} : DomainData).set_gatt_services_cache 7 { handle := 1 }).set_gatt_mtu_cache 7 20

/-- 128 distinct sample addresses, none of them 0. -/
def sampleAddrs : List Int :=
  (List.range MAX_CACHED_SERVICES).map (fun n : Nat => (n : Int) + 1)

/-- Sample assignment of a service collection to each address. -/
def sampleServices : Int → BleakGATTServiceCollection := fun k => { handle := k.toNat }

section AssocLemmas

variable {κ V : Type} [DecidableEq κ]

theorem lookupKey_eq_none (k : κ) (m : List (κ × V)) :
    lookupKey k m = none ↔ k ∉ m.map Prod.fst := by
  induction m with
  | nil => simp [lookupKey]
  | cons p rest ih =>
    by_cases h : p.1 = k
    · simp [lookupKey, h]
    · simp only [lookupKey, if_neg h, List.map_cons, List.mem_cons]
      constructor
      · intro hnone hor
        rcases hor with h1 | h2
        · exact h h1.symm
        · exact (ih.mp hnone) h2
      · intro hk
        exact ih.mpr fun hmem => hk (Or.inr hmem)

theorem lookupKey_setKey_self (k : κ) (v : V) (m : List (κ × V)) :
    lookupKey k (setKey k v m) = some v := by
  induction m with
  | nil => simp [setKey, lookupKey]
  | cons p rest ih =>
    by_cases h : p.1 = k
    · simp [setKey, h, lookupKey]
    · simp [setKey, h, lookupKey, ih]

theorem lookupKey_removeKey_self (k : κ) (m : List (κ × V)) :
    lookupKey k (removeKey k m) = none := by
  induction m with
  | nil => simp [removeKey, lookupKey]
  | cons p rest ih =>
    by_cases h : p.1 = k
    · simp [removeKey, h, ih]
    · simp [removeKey, h, lookupKey, ih]

theorem removeKey_of_lookupKey_none {k : κ} {m : List (κ × V)}
    (h : lookupKey k m = none) : removeKey k m = m := by
  induction m with
  | nil => simp [removeKey]
  | cons p rest ih =>
    by_cases hp : p.1 = k
    · simp [lookupKey, hp] at h
    · simp [lookupKey, hp] at h
      simp [removeKey, hp, ih h]

theorem length_removeKey_le (k : κ) (m : List (κ × V)) :
    (removeKey k m).length ≤ m.length := by
  induction m with
  | nil => simp [removeKey]
  | cons p rest ih =>
    by_cases h : p.1 = k
    · simp only [removeKey, if_pos h, List.length_cons]
      omega
    · simp only [removeKey, if_neg h, List.length_cons]
      omega

theorem length_removeKey_lt {k : κ} {v : V} {m : List (κ × V)}
    (h : lookupKey k m = some v) : (removeKey k m).length < m.length := by
  induction m with
  | nil => simp [lookupKey] at h
  | cons p rest ih =>
    by_cases hp : p.1 = k
    · have := length_removeKey_le k rest
      simp only [removeKey, if_pos hp, List.length_cons]
      omega
    · simp only [lookupKey, if_neg hp] at h
      simp only [removeKey, if_neg hp, List.length_cons]
      exact Nat.succ_lt_succ (ih h)

theorem removeKey_sublist (k : κ) (m : List (κ × V)) :
    (removeKey k m).Sublist m := by
  induction m with
  | nil => simp [removeKey]
  | cons p rest ih =>
    by_cases h : p.1 = k
    · simp only [removeKey, if_pos h]
      exact ih.cons p
    · simp only [removeKey, if_neg h]
      exact ih.cons₂ p

theorem length_removeKey_nodup {k : κ} {v : V} {m : List (κ × V)}
    (hnd : (m.map Prod.fst).Nodup) (h : lookupKey k m = some v) :
    (removeKey k m).length + 1 = m.length := by
  induction m with
  | nil => simp [lookupKey] at h
  | cons p rest ih =>
    simp only [List.map_cons, List.nodup_cons] at hnd
    by_cases hp : p.1 = k
    · have hnone : lookupKey k rest = none := by
        rw [lookupKey_eq_none]
        rw [hp] at hnd
        exact hnd.1
      simp [removeKey, hp, removeKey_of_lookupKey_none hnone]
    · simp only [lookupKey, if_neg hp] at h
      have hrec := ih hnd.2 h
      simp only [removeKey, if_neg hp, List.length_cons]
      omega

theorem mem_removeKey_key_ne {k : κ} {p : κ × V} {m : List (κ × V)}
    (hp : p ∈ removeKey k m) : p.1 ≠ k := by
  induction m with
  | nil => simp [removeKey] at hp
  | cons q rest ih =>
    by_cases hq : q.1 = k
    · exact ih (by simpa [removeKey, hq] using hp)
    · rcases (by simpa [removeKey, hq] using hp : p = q ∨ p ∈ removeKey k rest) with
        rfl | hmem
      · exact hq
      · exact ih hmem

end AssocLemmas

section MapPairLemmas

variable {V : Type}

theorem map_fst_map_pair (f : Int → V) (l : List Int) :
    (l.map (fun k => (k, f k))).map Prod.fst = l := by
  induction l with
  | nil => rfl
  | cons a t ih => simp [ih]

theorem lookupKey_map_pair (f : Int → V) {b : Int} {l : List Int} (hb : b ∈ l) :
    lookupKey b (l.map (fun k => (k, f k))) = some (f b) := by
  induction l with
  | nil => simp at hb
  | cons a t ih =>
    by_cases h : a = b
    · simp [lookupKey, h]
    · rcases List.mem_cons.mp hb with rfl | hmem
      · exact absurd rfl h
      · simp [lookupKey, h, ih hmem]

theorem lookupKey_map_pair_none (f : Int → V) {b : Int} {l : List Int}
    (hb : b ∉ l) : lookupKey b (l.map (fun k => (k, f k))) = none := by
  rw [lookupKey_eq_none, map_fst_map_pair]
  exact hb

end MapPairLemmas

section LRULemmas

variable {V : Type}

theorem LRU.get_fst (c : LRU V) (k : Int) : (c.get k).1 = lookupKey k c.entries := by
  unfold LRU.get
  cases lookupKey k c.entries <;> simp

theorem LRU.get_maxSize (c : LRU V) (k : Int) : (c.get k).2.maxSize = c.maxSize := by
  unfold LRU.get
  cases lookupKey k c.entries <;> simp

theorem LRU.set_maxSize (c : LRU V) (k : Int) (v : V) : (c.set k v).maxSize = c.maxSize :=
  rfl

theorem LRU.pop_maxSize (c : LRU V) (k : Int) : (c.pop k).2.maxSize = c.maxSize :=
  rfl

theorem LRU.length_set_le (c : LRU V) (k : Int) (v : V) :
    (c.set k v).entries.length ≤ c.maxSize := by
  unfold LRU.set
  simp only [List.length_take]
  omega

theorem LRU.length_get_le {c : LRU V} (k : Int) (h : c.entries.length ≤ c.maxSize) :
    (c.get k).2.entries.length ≤ c.maxSize := by
  unfold LRU.get
  cases hl : lookupKey k c.entries with
  | none => exact h
  | some v =>
    have := length_removeKey_lt hl
    simp only [List.length_cons]
    omega

theorem LRU.length_pop_le {c : LRU V} (k : Int) (h : c.entries.length ≤ c.maxSize) :
    (c.pop k).2.entries.length ≤ c.maxSize := by
  have := length_removeKey_le k c.entries
  unfold LRU.pop
  simp only
  omega

theorem LRU.foldl_set_maxSize (f : Int → V) (ks : List Int) (c : LRU V) :
    (ks.foldl (fun c k => c.set k (f k)) c).maxSize = c.maxSize := by
  induction ks generalizing c with
  | nil => rfl
  | cons a t ih => simpa using ih (c.set a (f a))

theorem LRU.foldl_set_entries (f : Int → V) {M : Nat} (hM : 1 ≤ M)
    (ks : List Int) (hnd : ks.Nodup) :
    (ks.foldl (fun c k => c.set k (f k)) (⟨M, []⟩ : LRU V)).entries =
      (ks.reverse.map (fun k => (k, f k))).take M := by
  induction ks using List.reverseRecOn with
  | nil => simp
  | append_singleton l a ih =>
    rw [List.nodup_append] at hnd
    obtain ⟨hl, -, hdisj⟩ := hnd
    have hal : a ∉ l := fun hmem => hdisj hmem (List.mem_singleton.mpr rfl)
    have hfold := ih hl
    rw [List.foldl_append]
    set c := l.foldl (fun c k => c.set k (f k)) (⟨M, []⟩ : LRU V) with hc
    have hmax : c.maxSize = M := LRU.foldl_set_maxSize f l _
    have hnone : lookupKey a c.entries = none := by
      rw [lookupKey_eq_none, hfold, ← List.map_take, map_fst_map_pair]
      intro hmem
      exact hal (List.mem_reverse.mp (List.mem_of_mem_take hmem))
    obtain ⟨m, rfl⟩ : ∃ m, M = m + 1 := ⟨M - 1, by omega⟩
    have hset : (c.set a (f a)).entries = ((a, f a) :: c.entries).take c.maxSize := by
      simp [LRU.set, removeKey_of_lookupKey_none hnone]
    simp only [List.foldl_cons, List.foldl_nil]
    rw [hset, hmax, hfold, List.reverse_append]
    simp only [List.reverse_singleton, List.singleton_append, List.map_cons,
      List.take_succ_cons, List.take_take]
    congr 1
    rw [min_eq_left (Nat.le_succ m)]

end LRULemmas

theorem cacheBound_applyOp {dd : DomainData} (h : CacheBound dd) (op : DomainOp) :
    CacheBound (applyOp dd op) := by
  obtain ⟨hs1, hs2, hm1, hm2⟩ := h
  cases op with
  | getServices a =>
    refine ⟨?_, ?_, hm1, hm2⟩
    · simpa [applyOp, DomainData.get_gatt_services_cache]
        using (LRU.get_maxSize dd._gatt_services_cache a).trans hs1
    · simpa [applyOp, DomainData.get_gatt_services_cache, ← hs1]
        using LRU.length_get_le a (hs1 ▸ hs2)
  | setServices a s =>
    refine ⟨hs1, ?_, hm1, hm2⟩
    simpa [applyOp, DomainData.set_gatt_services_cache, ← hs1]
      using LRU.length_set_le dd._gatt_services_cache a s
  | clearServices a =>
    refine ⟨hs1, ?_, hm1, hm2⟩
    simpa [applyOp, DomainData.clear_gatt_services_cache, ← hs1]
      using LRU.length_pop_le a (hs1 ▸ hs2)
  | getMtu a =>
    refine ⟨hs1, hs2, ?_, ?_⟩
    · simpa [applyOp, DomainData.get_gatt_mtu_cache]
        using (LRU.get_maxSize dd._gatt_mtu_cache a).trans hm1
    · simpa [applyOp, DomainData.get_gatt_mtu_cache, ← hm1]
        using LRU.length_get_le a (hm1 ▸ hm2)
  | setMtu a mtu =>
    refine ⟨hs1, hs2, hm1, ?_⟩
    simpa [applyOp, DomainData.set_gatt_mtu_cache, ← hm1]
      using LRU.length_set_le dd._gatt_mtu_cache a mtu
  | clearMtu a =>
    refine ⟨hs1, hs2, hm1, ?_⟩
    simpa [applyOp, DomainData.clear_gatt_mtu_cache, ← hm1]
      using LRU.length_pop_le a (hm1 ▸ hm2)
  | getEntry e => exact ⟨hs1, hs2, hm1, hm2⟩
  | setEntry e d =>
    simp only [applyOp]
    cases hcase : dd.set_entry_data e d with
    | error err => exact ⟨hs1, hs2, hm1, hm2⟩
    | ok dd2 =>
      simp only [DomainData.set_entry_data] at hcase
      split at hcase
      · cases hcase
      · rw [Except.ok.injEq] at hcase
        subst hcase
        exact ⟨hs1, hs2, hm1, hm2⟩
  | popEntry e =>
    simp only [applyOp]
    cases hcase : dd.pop_entry_data e with
    | error err => exact ⟨hs1, hs2, hm1, hm2⟩
    | ok r =>
      simp only [DomainData.pop_entry_data] at hcase
      split at hcase
      · rw [Except.ok.injEq] at hcase
        subst hcase
        exact ⟨hs1, hs2, hm1, hm2⟩
      · cases hcase
  | getStore hass σ e =>
    simp only [applyOp, DomainData.get_or_create_store]
    split <;> exact ⟨hs1, hs2, hm1, hm2⟩

theorem cacheBound_applyOps {dd : DomainData} (h : CacheBound dd)
    (ops : List DomainOp) : CacheBound (applyOps dd ops) := by
  induction ops generalizing dd with
  | nil => exact h
  | cons op rest ih => exact ih (cacheBound_applyOp h op)

theorem string_append_cancel_left {s a b : String} (h : s ++ a = s ++ b) : a = b := by
  have hd : s.data ++ a.data = s.data ++ b.data := by
    have := congrArg String.data h
    simpa [String.data_append] using this
  have hab : a.data = b.data := List.append_cancel_left hd
  cases a; cases b; exact congrArg String.mk hab

theorem lookupKey_mem {κ V : Type} [DecidableEq κ] {k : κ} {v : V}
    {m : List (κ × V)} (h : lookupKey k m = some v) : (k, v) ∈ m := by
  induction m with
  | nil => simp [lookupKey] at h
  | cons p rest ih =>
    by_cases hp : p.1 = k
    · simp only [lookupKey, if_pos hp] at h
      cases h
      exact List.mem_cons.mpr (Or.inl (by rw [← hp]))
    · simp only [lookupKey, if_neg hp] at h
      exact List.mem_cons.mpr (Or.inr (ih h))

theorem mem_setKey {κ V : Type} [DecidableEq κ] {k : κ} {v : V}
    {p : κ × V} {m : List (κ × V)} (hp : p ∈ setKey k v m) :
    p = (k, v) ∨ p ∈ m := by
  induction m with
  | nil => simpa [setKey] using hp
  | cons q rest ih =>
    by_cases hq : q.1 = k
    · rcases (by simpa [setKey, hq] using hp : p = (k, v) ∨ p ∈ rest) with h | h
      · exact Or.inl h
      · exact Or.inr (List.mem_cons.mpr (Or.inr h))
    · rcases (by simpa [setKey, hq] using hp : p = q ∨ p ∈ setKey k v rest) with h | h
      · exact Or.inr (List.mem_cons.mpr (Or.inl h))
      · rcases ih h with h2 | h2
        · exact Or.inl h2
        · exact Or.inr (List.mem_cons.mpr (Or.inr h2))

theorem storesWF_get_or_create_store {dd : DomainData} (h : StoresWF dd)
    (hass : HomeAssistant) (σ : Nat) (e : ConfigEntry) :
    StoresWF (dd.get_or_create_store hass σ e).2.1 := by
  unfold DomainData.get_or_create_store
  cases hl : lookupKey e.entry_id dd._stores with
  | some s => exact h
  | none =>
    intro p hp
    rcases mem_setKey hp with rfl | hmem
    · exact ⟨rfl, rfl⟩
    · exact h p hmem

theorem get_or_create_store_spec (dd : DomainData) (hass : HomeAssistant)
    (σ : Nat) (e : ConfigEntry) :
    lookupKey e.entry_id (dd.get_or_create_store hass σ e).2.1._stores =
        some (dd.get_or_create_store hass σ e).1 ∧
      (dd.get_or_create_store hass σ e).2.2 = σ + 1 ∧
      (StoresWF dd →
        (dd.get_or_create_store hass σ e).1.version = STORAGE_VERSION ∧
          (dd.get_or_create_store hass σ e).1.key = "esphome." ++ e.entry_id) := by
  unfold DomainData.get_or_create_store
  cases hl : lookupKey e.entry_id dd._stores with
  | some s =>
    refine ⟨hl, rfl, fun hWF => ?_⟩
    simpa using hWF (e.entry_id, s) (lookupKey_mem hl)
  | none => exact ⟨lookupKey_setKey_self _ _ _, rfl, fun _ => ⟨rfl, rfl⟩⟩

section LRUOverwrite

variable {V : Type}

theorem LRU.set_present_length {c : LRU V} {k : Int} {v0 : V}
    (hnd : (c.entries.map Prod.fst).Nodup) (hlen : c.entries.length ≤ c.maxSize)
    (h : lookupKey k c.entries = some v0) (v : V) :
    (c.set k v).entries.length = c.entries.length := by
  unfold LRU.set
  have hrem := length_removeKey_nodup hnd h
  simp only [List.length_take, List.length_cons]
  omega

theorem LRU.set_head (c : LRU V) (k : Int) (v : V) (hM : 1 ≤ c.maxSize) :
    (c.set k v).entries.head? = some (k, v) := by
  unfold LRU.set
  obtain ⟨m, hm⟩ : ∃ m, c.maxSize = m + 1 := ⟨c.maxSize - 1, by omega⟩
  simp [hm]

theorem LRU.set_lookup_self (c : LRU V) (k : Int) (v : V) (hM : 1 ≤ c.maxSize) :
    lookupKey k (c.set k v).entries = some v := by
  unfold LRU.set
  obtain ⟨m, hm⟩ : ∃ m, c.maxSize = m + 1 := ⟨c.maxSize - 1, by omega⟩
  simp [hm, lookupKey]

theorem LRU.set_entries_of_absent {c : LRU V} {k : Int} (v : V)
    (h : lookupKey k c.entries = none) :
    (c.set k v).entries = ((k, v) :: c.entries).take c.maxSize := by
  show ((k, v) :: removeKey k c.entries).take c.maxSize = _
  rw [removeKey_of_lookupKey_none h]

theorem LRU.set_survives_next_insert (c : LRU V) (k : Int) (v : V)
    {b : Int} (w : V) (h2 : 2 ≤ c.maxSize)
    (hb : lookupKey b (c.set k v).entries = none) :
    lookupKey k (((c.set k v).set b w)).entries = some v := by
  have hbk : b ≠ k := by
    intro hEq
    rw [hEq, LRU.set_lookup_self c k v (by omega)] at hb
    cases hb
  obtain ⟨m, hm⟩ : ∃ m, c.maxSize = m + 2 := ⟨c.maxSize - 2, by omega⟩
  have hset1 : (c.set k v).entries =
      (k, v) :: (removeKey k c.entries).take (m + 1) := by
    show ((k, v) :: removeKey k c.entries).take c.maxSize = _
    rw [hm, List.take_succ_cons]
  rw [LRU.set_entries_of_absent w hb, LRU.set_maxSize, hm, hset1]
  simp [lookupKey, hbk]

end LRUOverwrite

theorem setServicesAll_cache (dd : DomainData)
    (f : Int → BleakGATTServiceCollection) (ks : List Int) :
    (setServicesAll dd f ks)._gatt_services_cache =
      ks.foldl (fun c k => c.set k (f k)) dd._gatt_services_cache := by
  induction ks generalizing dd with
  | nil => rfl
  | cons a t ih =>
    simpa [setServicesAll, DomainData.set_gatt_services_cache]
      using ih (dd.set_gatt_services_cache a (f a))

theorem get_gatt_services_fst (dd : DomainData) (a : Int) :
    (dd.get_gatt_services_cache a).1 = lookupKey a dd._gatt_services_cache.entries := by
  show (dd._gatt_services_cache.get a).1 = _
  exact LRU.get_fst _ _

theorem get_gatt_mtu_fst (dd : DomainData) (a : Int) :
    (dd.get_gatt_mtu_cache a).1 = lookupKey a dd._gatt_mtu_cache.entries := by
  show (dd._gatt_mtu_cache.get a).1 = _
  exact LRU.get_fst _ _

/-- Claim C1: after a successful `set_entry_data(entry, data)`,
`get_entry_data(entry)` returns exactly `data`; and whenever no runtime
data is registered for the entry's identifier — never registered, or just
removed by `pop_entry_data` — both `get_entry_data` and `pop_entry_data`
fail with the Not-Found error (`KeyError`). -/
theorem entry_data_round_trip (dd : DomainData) (e : ConfigEntry)
    (d : RuntimeEntryData) (dd1 : DomainData) (d' : RuntimeEntryData)
    (dd2 : DomainData) :
    (dd.set_entry_data e d = .ok dd1 → dd1.get_entry_data e = .ok d) ∧
    (lookupKey e.entry_id dd._entry_datas = none →
      dd.get_entry_data e = .error .keyError ∧
        dd.pop_entry_data e = .error .keyError) ∧
    (dd.pop_entry_data e = .ok (d', dd2) →
      dd2.get_entry_data e = .error .keyError ∧
        dd2.pop_entry_data e = .error .keyError) := by
  refine ⟨?_, ?_, ?_⟩
  · intro h
    unfold DomainData.set_entry_data at h
    split at h
    · cases h
    · rw [Except.ok.injEq] at h
      subst h
      unfold DomainData.get_entry_data
      rw [lookupKey_setKey_self]
  · intro h
    unfold DomainData.get_entry_data DomainData.pop_entry_data
    rw [h]
    exact ⟨rfl, rfl⟩
  · intro h
    unfold DomainData.pop_entry_data at h
    split at h
    · rw [Except.ok.injEq, Prod.mk.injEq] at h
      obtain ⟨-, h2⟩ := h
      subst h2
      unfold DomainData.get_entry_data DomainData.pop_entry_data
      rw [lookupKey_removeKey_self]
      exact ⟨rfl, rfl⟩
    · cases h

/-- Witness for C1 at concrete inputs: registering `dataA` for `entryA` in
the empty registry and then looking it up, failing lookups on the empty
registry, and failing lookups after popping. -/
theorem entry_data_round_trip_witness :
    (({} : DomainData).set_entry_data entryA dataA = .ok ddA ∧
      ddA.get_entry_data entryA = .ok dataA) ∧
    (lookupKey entryA.entry_id ({} : DomainData)._entry_datas = none ∧
      ({} : DomainData).get_entry_data entryA = .error .keyError ∧
      ({} : DomainData).pop_entry_data entryA = .error .keyError) ∧
    (ddA.pop_entry_data entryA = .ok (dataA, ({} : DomainData)) ∧
      ({} : DomainData).get_entry_data entryA = .error .keyError ∧
      ({} : DomainData).pop_entry_data entryA = .error .keyError) := by
  have h1 : ({} : DomainData).set_entry_data entryA dataA = .ok ddA := rfl
  have h2 : lookupKey entryA.entry_id ({} : DomainData)._entry_datas = none := by
    decide
  have h3 : ddA.pop_entry_data entryA = .ok (dataA, ({} : DomainData)) := rfl
  exact ⟨⟨h1, (entry_data_round_trip {} entryA dataA ddA dataA {}).1 h1⟩,
    ⟨h2, (entry_data_round_trip {} entryA dataA ddA dataA {}).2.1 h2⟩,
    ⟨h3, (entry_data_round_trip ddA entryA dataA ddA dataA {}).2.2 h3⟩⟩

/-- Claim C2: when runtime data `d1` is already registered for the entry's
identifier, a second `set_entry_data(entry, d2)` fails with the
Invalid-State error (`ValueError`) and the registry is unchanged by the
failed call: `get_entry_data(entry)` still returns `d1`. -/
theorem double_registration_rejected (dd : DomainData) (e : ConfigEntry)
    (d1 d2 : RuntimeEntryData) (dd1 : DomainData)
    (h : dd.set_entry_data e d1 = .ok dd1) :
    dd1.set_entry_data e d2 = .error .valueError ∧
      dd1.get_entry_data e = .ok d1 := by
  unfold DomainData.set_entry_data at h
  split at h
  · cases h
  · rw [Except.ok.injEq] at h
    subst h
    constructor
    · unfold DomainData.set_entry_data
      rw [lookupKey_setKey_self]
      rfl
    · unfold DomainData.get_entry_data
      rw [lookupKey_setKey_self]

/-- Witness for C2: registering `dataA` for `entryA`, then attempting to
register `dataB` for the same identifier. -/
theorem double_registration_rejected_witness :
    ({} : DomainData).set_entry_data entryA dataA = .ok ddA ∧
    (ddA.set_entry_data entryA dataB = .error .valueError ∧
      ddA.get_entry_data entryA = .ok dataA) :=
  ⟨rfl, double_registration_rejected {} entryA dataA dataB ddA rfl⟩

/-- Claim C7: cache lookups are total — a miss returns no value and leaves
the registry unchanged (never an error) — and cache clears on an absent
address are total no-ops leaving the registry exactly as it was. -/
theorem cache_miss_and_clear_are_safe (dd : DomainData) (a : Int) :
    (lookupKey a dd._gatt_services_cache.entries = none →
      dd.get_gatt_services_cache a = (none, dd) ∧
        dd.clear_gatt_services_cache a = dd) ∧
    (lookupKey a dd._gatt_mtu_cache.entries = none →
      dd.get_gatt_mtu_cache a = (none, dd) ∧
        dd.clear_gatt_mtu_cache a = dd) := by
  constructor
  · intro h
    have hget : dd._gatt_services_cache.get a = (none, dd._gatt_services_cache) := by
      unfold LRU.get
      rw [h]
    have hpop : (dd._gatt_services_cache.pop a).2 = dd._gatt_services_cache := by
      unfold LRU.pop
      rw [removeKey_of_lookupKey_none h]
    constructor
    · unfold DomainData.get_gatt_services_cache
      rw [hget]
    · unfold DomainData.clear_gatt_services_cache
      rw [hpop]
  · intro h
    have hget : dd._gatt_mtu_cache.get a = (none, dd._gatt_mtu_cache) := by
      unfold LRU.get
      rw [h]
    have hpop : (dd._gatt_mtu_cache.pop a).2 = dd._gatt_mtu_cache := by
      unfold LRU.pop
      rw [removeKey_of_lookupKey_none h]
    constructor
    · unfold DomainData.get_gatt_mtu_cache
      rw [hget]
    · unfold DomainData.clear_gatt_mtu_cache
      rw [hpop]

/-- Witness for C7: address 99 is cached in neither cache of `ddC8`. -/
theorem cache_miss_and_clear_are_safe_witness :
    (lookupKey 99 ddC8._gatt_services_cache.entries = none ∧
      ddC8.get_gatt_services_cache 99 = (none, ddC8) ∧
        ddC8.clear_gatt_services_cache 99 = ddC8) ∧
    (lookupKey 99 ddC8._gatt_mtu_cache.entries = none ∧
      ddC8.get_gatt_mtu_cache 99 = (none, ddC8) ∧
        ddC8.clear_gatt_mtu_cache 99 = ddC8) :=
  ⟨⟨by decide, (cache_miss_and_clear_are_safe ddC8 99).1 (by decide)⟩,
    ⟨by decide, (cache_miss_and_clear_are_safe ddC8 99).2 (by decide)⟩⟩

/-- Claim C9: every operation on one GATT cache leaves the other cache's
contents (hence in particular its entry for any address) unchanged. -/
theorem gatt_cache_independence (dd : DomainData) (a : Int)
    (s : BleakGATTServiceCollection) (mtu : Int) :
    (dd.set_gatt_services_cache a s)._gatt_mtu_cache = dd._gatt_mtu_cache ∧
    (dd.clear_gatt_services_cache a)._gatt_mtu_cache = dd._gatt_mtu_cache ∧
    ((dd.get_gatt_services_cache a).2)._gatt_mtu_cache = dd._gatt_mtu_cache ∧
    (dd.set_gatt_mtu_cache a mtu)._gatt_services_cache = dd._gatt_services_cache ∧
    (dd.clear_gatt_mtu_cache a)._gatt_services_cache = dd._gatt_services_cache ∧
    ((dd.get_gatt_mtu_cache a).2)._gatt_services_cache = dd._gatt_services_cache :=
  ⟨rfl, rfl, rfl, rfl, rfl, rfl⟩

/-- Claim C10: every entry-keyed operation depends only on the entry's
`entry_id` — two entries with equal identifiers produce identical results
and state changes. -/
theorem entry_ops_depend_only_on_id (e1 e2 : ConfigEntry)
    (h : e1.entry_id = e2.entry_id) (dd : DomainData) (d : RuntimeEntryData)
    (hass : HomeAssistant) (σ : Nat) :
    dd.get_entry_data e1 = dd.get_entry_data e2 ∧
    dd.set_entry_data e1 d = dd.set_entry_data e2 d ∧
    dd.pop_entry_data e1 = dd.pop_entry_data e2 ∧
    dd.get_or_create_store hass σ e1 = dd.get_or_create_store hass σ e2 := by
  unfold DomainData.get_entry_data DomainData.set_entry_data
    DomainData.pop_entry_data DomainData.get_or_create_store
  rw [h]
  exact ⟨rfl, rfl, rfl, rfl⟩

/-- Witness for C10: `entryA` and `entryA2` share an identifier but differ
in their other attributes. -/
theorem entry_ops_depend_only_on_id_witness :
    entryA.entry_id = entryA2.entry_id ∧
    (ddA.get_entry_data entryA = ddA.get_entry_data entryA2 ∧
      ddA.set_entry_data entryA dataB = ddA.set_entry_data entryA2 dataB ∧
      ddA.pop_entry_data entryA = ddA.pop_entry_data entryA2 ∧
      ddA.get_or_create_store hassEmpty 0 entryA =
        ddA.get_or_create_store hassEmpty 0 entryA2) :=
  ⟨by decide,
    entry_ops_depend_only_on_id entryA entryA2 (by decide) ddA dataB hassEmpty 0⟩

/-- Claim C5: `DomainData.get` called twice on the same process-wide state
returns the same registry both times (the second call returns the stored
instance and does not write), and on a freshly initialized state it creates
a registry with empty entry-data map, empty store map and two empty caches
of capacity `MAX_CACHED_SERVICES`. -/
theorem singleton_identity (hass : HomeAssistant) (dd : DomainData)
    (h1 : HomeAssistant) :
    (DomainData.get hass = (dd, h1) → DomainData.get h1 = (dd, h1)) ∧
    (hass.dataEsphome = none →
      (DomainData.get hass).1._entry_datas = [] ∧
      (DomainData.get hass).1._stores = [] ∧
      (DomainData.get hass).1._gatt_services_cache.entries = [] ∧
      (DomainData.get hass).1._gatt_mtu_cache.entries = [] ∧
      (DomainData.get hass).1._gatt_services_cache.maxSize = MAX_CACHED_SERVICES ∧
      (DomainData.get hass).1._gatt_mtu_cache.maxSize = MAX_CACHED_SERVICES) := by
  constructor
  · intro h
    cases hh : hass.dataEsphome with
    | some dd0 =>
      have hget : DomainData.get hass = (dd0, hass) := by
        unfold DomainData.get
        rw [hh]
      rw [hget, Prod.mk.injEq] at h
      obtain ⟨rfl, rfl⟩ := h
      exact hget
    | none =>
      have hget : DomainData.get hass =
          (({} : DomainData), { hass with dataEsphome := some ({} : DomainData) }) := by
        unfold DomainData.get
        rw [hh]
      rw [hget, Prod.mk.injEq] at h
      obtain ⟨rfl, rfl⟩ := h
      unfold DomainData.get
      rfl
  · intro hh
    have hget : DomainData.get hass =
        (({} : DomainData), { hass with dataEsphome := some ({} : DomainData) }) := by
      unfold DomainData.get
      rw [hh]
    rw [hget]
    exact ⟨rfl, rfl, rfl, rfl, rfl, rfl⟩

/-- Witness for C5 on the fresh host state `hassEmpty`. -/
theorem singleton_identity_witness :
    (DomainData.get hassEmpty =
        (({} : DomainData), { dataEsphome := some ({} : DomainData) }) ∧
      DomainData.get { dataEsphome := some ({} : DomainData) } =
        (({} : DomainData), { dataEsphome := some ({} : DomainData) })) ∧
    (hassEmpty.dataEsphome = none ∧
      (DomainData.get hassEmpty).1._entry_datas = [] ∧
      (DomainData.get hassEmpty).1._stores = [] ∧
      (DomainData.get hassEmpty).1._gatt_services_cache.entries = [] ∧
      (DomainData.get hassEmpty).1._gatt_mtu_cache.entries = [] ∧
      (DomainData.get hassEmpty).1._gatt_services_cache.maxSize =
        MAX_CACHED_SERVICES ∧
      (DomainData.get hassEmpty).1._gatt_mtu_cache.maxSize =
        MAX_CACHED_SERVICES) := by
  have h : DomainData.get hassEmpty =
      (({} : DomainData), { dataEsphome := some ({} : DomainData) }) := rfl
  exact ⟨⟨h,
      (singleton_identity hassEmpty {}
        { dataEsphome := some ({} : DomainData) }).1 h⟩,
    rfl,
    (singleton_identity hassEmpty {}
      { dataEsphome := some ({} : DomainData) }).2 rfl⟩

/-- Counterexample to claim C6 as stated: on the already-present path a new
`ESPHomeStorage` object IS constructed.  Python evaluates `setdefault`'s
default argument eagerly, so `get_or_create_store` runs the constructor on
every call; here `entryA`'s handle is already present in `ddStoreA`
(created by the first call, which advanced the allocation counter from 0 to
1), yet the second call advances the allocation counter from 1 to 2 —
a fresh storage-handle object was constructed (and discarded). -/
theorem store_constructed_on_present_path :
    ({} : DomainData).get_or_create_store hassEmpty 0 entryA =
        (storeA, ddStoreA, 1) ∧
    lookupKey entryA.entry_id ddStoreA._stores = some storeA ∧
    ddStoreA.get_or_create_store hassEmpty 1 entryA = (storeA, ddStoreA, 2) ∧
    (2 : Nat) ≠ 1 :=
  ⟨rfl, by decide, rfl, by decide⟩

/-- Claim C6 amended: when the entry's identifier already has a storage
handle, a subsequent `get_or_create_store` returns the previously created
handle and leaves the store map unchanged; a fresh handle object is
nevertheless constructed (the allocation counter advances by one) because
the default argument of `setdefault` is evaluated eagerly — that fresh
object is discarded, never stored and never returned. -/
theorem store_reuse_despite_eager_construction (dd : DomainData)
    (hass hass2 : HomeAssistant) (σ : Nat) (e : ConfigEntry)
    (s1 : ESPHomeStorage) (dd1 : DomainData) (σ1 : Nat)
    (h : dd.get_or_create_store hass σ e = (s1, dd1, σ1)) :
    dd1.get_or_create_store hass2 σ1 e = (s1, dd1, σ1 + 1) := by
  have hs := get_or_create_store_spec dd hass σ e
  rw [h] at hs
  have hl : lookupKey e.entry_id dd1._stores = some s1 := hs.1
  unfold DomainData.get_or_create_store
  rw [hl]
  rfl

/-- Witness for the amended C6 at concrete inputs. -/
theorem store_reuse_despite_eager_construction_witness :
    ({} : DomainData).get_or_create_store hassEmpty 0 entryA =
        (storeA, ddStoreA, 1) ∧
    ddStoreA.get_or_create_store hassEmpty 1 entryA = (storeA, ddStoreA, 1 + 1) :=
  ⟨rfl, store_reuse_despite_eager_construction {} hassEmpty hassEmpty 0 entryA
    storeA ddStoreA 1 rfl⟩

/-- Claim C3: `get_or_create_store` is memoized per entry identifier (the
second call returns the identical handle instance and leaves the registry
unchanged), a call with a different identifier returns a distinct handle,
and the handle was constructed with schema version 1 and storage key
`"esphome." ++ entry_id` (provided every handle already in the map was —
`StoresWF`, which holds in every reachable state). -/
theorem store_memoized_and_keyed (dd : DomainData)
    (hass hass2 hass3 : HomeAssistant) (σ : Nat) (e e2 : ConfigEntry)
    (s1 : ESPHomeStorage) (dd1 : DomainData) (σ1 : Nat)
    (s2 : ESPHomeStorage) (dd2 : DomainData) (σ2 : Nat)
    (s3 : ESPHomeStorage) (dd3 : DomainData) (σ3 : Nat)
    (hWF : StoresWF dd)
    (h1 : dd.get_or_create_store hass σ e = (s1, dd1, σ1))
    (h2 : dd1.get_or_create_store hass2 σ1 e = (s2, dd2, σ2))
    (h3 : dd1.get_or_create_store hass3 σ1 e2 = (s3, dd3, σ3))
    (hne : e2.entry_id ≠ e.entry_id) :
    s2 = s1 ∧ dd2 = dd1 ∧ s3 ≠ s1 ∧
      s1.version = 1 ∧ s1.key = "esphome." ++ e.entry_id := by
  have hsA := get_or_create_store_spec dd hass σ e
  rw [h1] at hsA
  have hl1 : lookupKey e.entry_id dd1._stores = some s1 := hsA.1
  have hkey1 : s1.version = STORAGE_VERSION ∧ s1.key = "esphome." ++ e.entry_id :=
    hsA.2.2 hWF
  have hWF1 : StoresWF dd1 := by
    have hpres := storesWF_get_or_create_store hWF hass σ e
    rw [h1] at hpres
    exact hpres
  have hmem : dd1.get_or_create_store hass2 σ1 e = (s1, dd1, σ1 + 1) := by
    unfold DomainData.get_or_create_store
    rw [hl1]
    rfl
  have heq2 : s2 = s1 ∧ dd2 = dd1 ∧ σ2 = σ1 + 1 := by
    have hcmp := h2.symm.trans hmem
    rw [Prod.mk.injEq, Prod.mk.injEq] at hcmp
    exact ⟨hcmp.1, hcmp.2.1, hcmp.2.2⟩
  have hsC := get_or_create_store_spec dd1 hass3 σ1 e2
  rw [h3] at hsC
  have hkey3 : s3.version = STORAGE_VERSION ∧ s3.key = "esphome." ++ e2.entry_id :=
    hsC.2.2 hWF1
  have hne13 : s3 ≠ s1 := by
    intro hEq
    apply hne
    apply @string_append_cancel_left "esphome." e2.entry_id e.entry_id
    rw [← hkey3.2, ← hkey1.2, hEq]
  exact ⟨heq2.1, heq2.2.1, hne13, hkey1.1, hkey1.2⟩

/-- Witness for C3: creating `entryA`'s store twice and `entryB`'s store
from the empty registry. -/
theorem store_memoized_and_keyed_witness :
    StoresWF ({} : DomainData) ∧
    ({} : DomainData).get_or_create_store hassEmpty 0 entryA =
        (storeA, ddStoreA, 1) ∧
    ddStoreA.get_or_create_store hassEmpty 1 entryA = (storeA, ddStoreA, 2) ∧
    ddStoreA.get_or_create_store hassEmpty 1 entryB = (storeB, ddStoreB, 2) ∧
    entryB.entry_id ≠ entryA.entry_id ∧
    (storeA = storeA ∧ ddStoreA = ddStoreA ∧ storeB ≠ storeA ∧
      storeA.version = 1 ∧ storeA.key = "esphome." ++ entryA.entry_id) := by
  have hWF : StoresWF ({} : DomainData) :=
    fun p hp => absurd hp (List.not_mem_nil p)
  exact ⟨hWF, rfl, rfl, rfl, by decide,
    store_memoized_and_keyed {} hassEmpty hassEmpty hassEmpty 0 entryA entryB
      storeA ddStoreA 1 storeA ddStoreA 2 storeB ddStoreB 2 hWF rfl rfl rfl
      (by decide)⟩

/-- Claim C8: setting a cache entry for an already-present address updates
its value without increasing the occupied-entry count, moves it to the
most-recently-used position, and refreshes its recency: it survives the
next insertion of a fresh address, so it is not the next eviction
candidate.  Stated for both caches, under the well-formedness every
reachable cache state has (distinct keys, occupancy within capacity). -/
theorem cache_overwrite_refreshes (dd : DomainData) (a : Int)
    (s : BleakGATTServiceCollection) (mtu : Int) :
    (∀ s0, (dd._gatt_services_cache.entries.map Prod.fst).Nodup →
      dd._gatt_services_cache.entries.length ≤ dd._gatt_services_cache.maxSize →
      lookupKey a dd._gatt_services_cache.entries = some s0 →
      ((dd.set_gatt_services_cache a s)._gatt_services_cache.entries.length =
          dd._gatt_services_cache.entries.length ∧
        lookupKey a (dd.set_gatt_services_cache a s)._gatt_services_cache.entries =
          some s ∧
        (dd.set_gatt_services_cache a s)._gatt_services_cache.entries.head? =
          some (a, s) ∧
        ∀ b w, 2 ≤ dd._gatt_services_cache.maxSize →
          lookupKey b
              (dd.set_gatt_services_cache a s)._gatt_services_cache.entries =
            none →
          lookupKey a
              ((dd.set_gatt_services_cache a s).set_gatt_services_cache b
                  w)._gatt_services_cache.entries =
            some s)) ∧
    (∀ m0, (dd._gatt_mtu_cache.entries.map Prod.fst).Nodup →
      dd._gatt_mtu_cache.entries.length ≤ dd._gatt_mtu_cache.maxSize →
      lookupKey a dd._gatt_mtu_cache.entries = some m0 →
      ((dd.set_gatt_mtu_cache a mtu)._gatt_mtu_cache.entries.length =
          dd._gatt_mtu_cache.entries.length ∧
        lookupKey a (dd.set_gatt_mtu_cache a mtu)._gatt_mtu_cache.entries =
          some mtu ∧
        (dd.set_gatt_mtu_cache a mtu)._gatt_mtu_cache.entries.head? =
          some (a, mtu) ∧
        ∀ b w, 2 ≤ dd._gatt_mtu_cache.maxSize →
          lookupKey b (dd.set_gatt_mtu_cache a mtu)._gatt_mtu_cache.entries =
            none →
          lookupKey a
              ((dd.set_gatt_mtu_cache a mtu).set_gatt_mtu_cache b
                  w)._gatt_mtu_cache.entries =
            some mtu)) := by
  constructor
  · intro s0 hnd hlen hl
    have hpos : 0 < dd._gatt_services_cache.entries.length :=
      List.length_pos.mpr (List.ne_nil_of_mem (lookupKey_mem hl))
    refine ⟨LRU.set_present_length hnd hlen hl s,
      LRU.set_lookup_self _ a s (le_trans hpos hlen),
      LRU.set_head _ a s (le_trans hpos hlen), ?_⟩
    intro b w h2 hb
    exact LRU.set_survives_next_insert _ a s w h2 hb
  · intro m0 hnd hlen hl
    have hpos : 0 < dd._gatt_mtu_cache.entries.length :=
      List.length_pos.mpr (List.ne_nil_of_mem (lookupKey_mem hl))
    refine ⟨LRU.set_present_length hnd hlen hl mtu,
      LRU.set_lookup_self _ a mtu (le_trans hpos hlen),
      LRU.set_head _ a mtu (le_trans hpos hlen), ?_⟩
    intro b w h2 hb
    exact LRU.set_survives_next_insert _ a mtu w h2 hb

/-- Witness for C8 on `ddC8`, overwriting address 7 in both caches and then
inserting the fresh address 9. -/
theorem cache_overwrite_refreshes_witness :
    ((ddC8._gatt_services_cache.entries.map Prod.fst).Nodup ∧
      ddC8._gatt_services_cache.entries.length ≤
        ddC8._gatt_services_cache.maxSize ∧
      lookupKey 7 ddC8._gatt_services_cache.entries = some { handle := 1 } ∧
      2 ≤ ddC8._gatt_services_cache.maxSize ∧
      lookupKey 9
          (ddC8.set_gatt_services_cache 7
            { handle := 2 })._gatt_services_cache.entries = none) ∧
    ((ddC8.set_gatt_services_cache 7
          { handle := 2 })._gatt_services_cache.entries.length =
        ddC8._gatt_services_cache.entries.length ∧
      lookupKey 7
          (ddC8.set_gatt_services_cache 7
            { handle := 2 })._gatt_services_cache.entries =
        some { handle := 2 } ∧
      lookupKey 7
          ((ddC8.set_gatt_services_cache 7
              { handle := 2 }).set_gatt_services_cache 9
              { handle := 3 })._gatt_services_cache.entries =
        some { handle := 2 }) ∧
    ((ddC8.set_gatt_mtu_cache 7 30)._gatt_mtu_cache.entries.length =
        ddC8._gatt_mtu_cache.entries.length ∧
      lookupKey 7 (ddC8.set_gatt_mtu_cache 7 30)._gatt_mtu_cache.entries =
        some 30 ∧
      lookupKey 7
          ((ddC8.set_gatt_mtu_cache 7 30).set_gatt_mtu_cache 9
              31)._gatt_mtu_cache.entries =
        some 30) := by
  have hc := (cache_overwrite_refreshes ddC8 7 { handle := 2 } 30).1
    { handle := 1 } (by decide) (by decide) (by decide)
  have hm := (cache_overwrite_refreshes ddC8 7 { handle := 2 } 30).2
    20 (by decide) (by decide) (by decide)
  exact ⟨⟨by decide, by decide, by decide, by decide, by decide⟩,
    ⟨hc.1, hc.2.1, hc.2.2.2 9 { handle := 3 } (by decide) (by decide)⟩,
    ⟨hm.1, hm.2.1, hm.2.2.2 9 31 (by decide) (by decide)⟩⟩

/-- Claim C4: starting from a fresh registry, after every sequence of
registry operations each GATT cache holds at most `MAX_CACHED_SERVICES`
(128) entries; and inserting 129 distinct addresses into the services
cache, with no intervening accesses, evicts exactly the first-inserted
(least-recently-used) address — its lookup misses — while the 128 most
recently inserted addresses all remain retrievable with their values. -/
theorem gatt_cache_bounded_lru :
    (∀ ops : List DomainOp,
      (applyOps {} ops)._gatt_services_cache.entries.length ≤
          MAX_CACHED_SERVICES ∧
        (applyOps {} ops)._gatt_mtu_cache.entries.length ≤
          MAX_CACHED_SERVICES) ∧
    (∀ (a : Int) (t : List Int) (f : Int → BleakGATTServiceCollection),
      t.length = MAX_CACHED_SERVICES → (a :: t).Nodup →
      ((setServicesAll {} f (a :: t)).get_gatt_services_cache a).1 = none ∧
        ∀ b ∈ t,
          ((setServicesAll {} f (a :: t)).get_gatt_services_cache b).1 =
            some (f b)) := by
  constructor
  · intro ops
    have hinit : CacheBound ({} : DomainData) :=
      ⟨rfl, Nat.zero_le _, rfl, Nat.zero_le _⟩
    have h := cacheBound_applyOps hinit ops
    exact ⟨h.2.1, h.2.2.2⟩
  · intro a t f hlen hnd
    have hM : (1 : Nat) ≤ MAX_CACHED_SERVICES := by norm_num [MAX_CACHED_SERVICES]
    have hcache : (setServicesAll {} f (a :: t))._gatt_services_cache =
        (a :: t).foldl (fun c k => c.set k (f k))
          { maxSize := MAX_CACHED_SERVICES, entries := [] } :=
      setServicesAll_cache {} f (a :: t)
    have hent := LRU.foldl_set_entries f hM (a :: t) hnd
    have hlenmap : (t.reverse.map (fun k => (k, f k))).length =
        MAX_CACHED_SERVICES := by
      simp [hlen]
    have htake : (((a :: t).reverse).map
          (fun k => (k, f k))).take MAX_CACHED_SERVICES =
        t.reverse.map (fun k => (k, f k)) := by
      have hsplit : ((a :: t).reverse).map (fun k => (k, f k)) =
          t.reverse.map (fun k => (k, f k)) ++ [(a, f a)] := by simp
      rw [hsplit, List.take_append_of_le_length (le_of_eq hlenmap.symm),
        List.take_of_length_le (le_of_eq hlenmap)]
    have hentries : (setServicesAll {} f (a :: t))._gatt_services_cache.entries =
        t.reverse.map (fun k => (k, f k)) := by
      rw [hcache, hent, htake]
    have hat : a ∉ t := (List.nodup_cons.mp hnd).1
    constructor
    · rw [get_gatt_services_fst, hentries]
      exact lookupKey_map_pair_none f (fun hmem => hat (List.mem_reverse.mp hmem))
    · intro b hb
      rw [get_gatt_services_fst, hentries]
      exact lookupKey_map_pair f (List.mem_reverse.mpr hb)

/-- Witness for C4: a concrete two-operation sequence, and the 129 distinct
addresses 0, 1, …, 128 inserted into the services cache. -/
theorem gatt_cache_bounded_lru_witness :
    ((applyOps {} [DomainOp.setServices 3 { handle := 7 },
          DomainOp.clearMtu 5])._gatt_services_cache.entries.length ≤
          MAX_CACHED_SERVICES ∧
        (applyOps {} [DomainOp.setServices 3 { handle := 7 },
          DomainOp.clearMtu 5])._gatt_mtu_cache.entries.length ≤
          MAX_CACHED_SERVICES) ∧
    (sampleAddrs.length = MAX_CACHED_SERVICES ∧
      ((0 : Int) :: sampleAddrs).Nodup) ∧
    (((setServicesAll {} sampleServices
          ((0 : Int) :: sampleAddrs)).get_gatt_services_cache 0).1 = none ∧
      ∀ b ∈ sampleAddrs,
        ((setServicesAll {} sampleServices
            ((0 : Int) :: sampleAddrs)).get_gatt_services_cache b).1 =
          some (sampleServices b)) := by
  have hlen : sampleAddrs.length = MAX_CACHED_SERVICES := by
    rw [sampleAddrs, List.length_map, List.length_range]
  have hnd : ((0 : Int) :: sampleAddrs).Nodup := by
    rw [List.nodup_cons]
    refine ⟨?_, ?_⟩
    · intro hmem
      simp only [sampleAddrs, List.mem_map, List.mem_range] at hmem
      obtain ⟨x, -, hx⟩ := hmem
      omega
    · rw [sampleAddrs]
      refine List.Nodup.map ?_ (List.nodup_range _)
      intro x y hxy
      simp only at hxy
      omega
  exact ⟨gatt_cache_bounded_lru.1 _, ⟨hlen, hnd⟩,
    gatt_cache_bounded_lru.2 0 sampleAddrs sampleServices hlen hnd⟩

end EsphomeDomainData
